import Mathlib

/-!
Verification development for the carry-forward line transformer
(`src/main.ts`).  The transformer is embedded shallowly:

* Strings are sequences of code points (`String` / `List Char`); cursor
  columns and `line.length` are modelled as code-point indices (exact for
  documents confined to the basic multilingual plane).
* The specific regular-expression operations appearing literally in the
  source (`/(?<=[\s^])\^[a-zA-Z0-9-]+$/u`, `/^\s*/`, `/^\s*$/`, `/\s*?$/`,
  `/{{LINK(\|?.*)}}/`, `/]]$/`, and the default `lineFormatFrom` pattern
  `\s*$`) are implemented directly as functions on character lists with
  JavaScript first-match semantics.
* The host regular-expression compiler for the user-configurable
  `lineFormatFrom` pattern is an injected oracle
  `tryCompile : String → Except String Fmt`: on success it yields the
  compiled first-match replace function, on failure the JavaScript error
  text.  Replacement strings are inserted literally (no `$`-pattern
  expansion; the concrete inputs used below contain no dollar signs).
* `view.app.fileManager.generateMarkdownLink(file, "/", subpath, linkText)`
  is the injected host capability `mkLink : String → String` taking the
  varying subpath argument (file, base path and configured link text are
  fixed for one invocation).
* `Math.floor(Math.random() * characters.length)` yields an index below 37;
  the stream of indices is the injected `rand : Nat → Nat → Fin 37`
  (mint counter, character position).
-/

/-- The character set of the JavaScript `\s` class. -/
def wsChars : List Char :=
  [' ', '\t', '\n', '\u000B', '\u000C', '\r', ' ', ' ',
   ' ', ' ', ' ', ' ', ' ', ' ', ' ',
   ' ', ' ', ' ', ' ', ' ', ' ', ' ',
   ' ', '　', '﻿']

/-- Membership in the JavaScript `\s` character class. -/
def jsWhitespace (ch : Char) : Bool := decide (ch ∈ wsChars)

/-- Membership in the `[a-zA-Z0-9-]` class of `blockIDRegex`. -/
def isBlockIDChar (ch : Char) : Bool :=
  decide (('a' ≤ ch ∧ ch ≤ 'z') ∨ ('A' ≤ ch ∧ ch ≤ 'Z') ∨
          ('0' ≤ ch ∧ ch ≤ '9') ∨ ch = '-')

/-- Test of `/^\s*$/` (used for the blank-line shortcut). -/
def isAllWs (s : String) : Bool := s.data.all jsWhitespace

/-- Result of `copiedLine.replace(/^\s*/, '')`: drop the maximal leading
whitespace run. -/
def dropLeadingWs (s : String) : String := ⟨s.data.dropWhile jsWhitespace⟩

/-- The text before the first match of `/\s*?$/` (equally of `/\s*$/`):
both patterns first match at the start of the maximal trailing whitespace
run and consume it, so replacing the match appends after this prefix. -/
def rstrip (s : String) : String :=
  ⟨(s.data.reverse.dropWhile jsWhitespace).reverse⟩

/-- Compiled form of the default `lineFormatFrom` pattern `\s*$`:
`s.replace(/\s*$/u, repl)` replaces the trailing-whitespace run
(possibly empty) with `repl`, inserted literally. -/
def defaultFmtReplace (s repl : String) : String := rstrip s ++ repl

/-- JavaScript `String.prototype.slice` with possibly negative bounds. -/
def jsSlice (s : String) (a b : Int) : String :=
  let n : Int := (s.data.length : Int)
  let lo : Int := if a < 0 then max (n + a) 0 else min a n
  let hi : Int := if b < 0 then max (n + b) 0 else min b n
  ⟨(s.data.take hi.toNat).drop lo.toNat⟩

/-- One pass of `.replace(/\\c/g, r)`: every backslash-`c` pair becomes
`r`, scanning left to right without overlap. -/
def replaceEsc (c r : Char) : List Char → List Char
  | [] => []
  | [x] => [x]
  | x :: y :: rest =>
    if x = '\\' ∧ y = c then r :: replaceEsc c r rest
    else x :: replaceEsc c r (y :: rest)

/-- The un-double-escaping done by `validateRegex`: `\\n`, then `\\t`,
then `\\r` are rewritten to the control characters, in that order. -/
def unescapeJson (s : String) : String :=
  ⟨replaceEsc 'r' '\r' (replaceEsc 't' '\t' (replaceEsc 'n' '\n' s.data))⟩

/-- Lookbehind `(?<=[\s^])` of `blockIDRegex`: the character before the
match head must exist and be whitespace or a literal caret. -/
def prevOK : Option Char → Bool
  | none => false
  | some ch => jsWhitespace ch || decide (ch = '^')

/-- First (leftmost) match of `blockIDRegex = /(?<=[\s^])\^[a-zA-Z0-9-]+$/u`
in a character list, split as (text before the match, the match).  Because
the pattern is anchored at end of input, a match is a suffix `'^' :: t`
with `t` nonempty and all in `[a-zA-Z0-9-]`, preceded by a `[\s^]`
character. -/
def splitBlockID : Option Char → List Char → Option (List Char × List Char)
  | _, [] => none
  | prev, c :: rest =>
    if prevOK prev = true ∧ c = '^' ∧ ¬ rest = [] ∧ rest.all isBlockIDChar = true then
      some ([], c :: rest)
    else
      match splitBlockID (some c) rest with
      | some (p, m) => some (c :: p, m)
      | none => none

/-- `line.match(blockIDRegex)`, as the matched token (a match array with
no capture groups stringifies to the matched text). -/
def matchBlockID (s : String) : Option String :=
  match splitBlockID none s.data with
  | some (_, m) => some ⟨m⟩
  | none => none

/-- `copiedLine.replace(blockIDRegex, "")`: remove the first match. -/
def stripBlockID (s : String) : String :=
  match splitBlockID none s.data with
  | some (p, _) => ⟨p⟩
  | none => s

/-- Result of `link.replace(/]]$/, "")`: drop a trailing `]]` pair. -/
def linkCore (link : String) : String :=
  match link.data.reverse with
  | ']' :: ']' :: rest => ⟨rest.reverse⟩
  | _ => link

/-- Does the second list start with the first one? -/
def listStarts : List Char → List Char → Bool
  | [], _ => true
  | _ :: _, [] => false
  | p :: ps, x :: xs => if p = x then listStarts ps xs else false

/-- Not a line terminator (`.` in a JavaScript regex without the `s`
flag does not match `'\n'`). -/
def notNL (ch : Char) : Bool := if ch = '\n' then false else true

/-- Largest index `k` with a `}}` pair at `k`. -/
def lastBracePos : List Char → Option Nat
  | [] => none
  | c :: rest =>
    match lastBracePos rest with
    | some k => some (k + 1)
    | none => if c = '}' ∧ rest.head? = some '}' then some 0 else none

/-- Given the text after `{{LINK`, the greedy match of `(\|?.*)}}`:
the capture runs to the last `}}` pair inside the maximal newline-free
prefix; returns (capture, text after the closing braces). -/
def bracesSplit (r : List Char) : Option (List Char × List Char) :=
  match lastBracePos (r.takeWhile notNL) with
  | some k => some (r.take k, r.drop (k + 2))
  | none => none

/-- The literal characters of `{{LINK`. -/
def linkToken : List Char := ['{', '{', 'L', 'I', 'N', 'K']

/-- Scan for the first position where `/{{LINK(\|?.*)}}/` matches and
replace the match with `core ++ capture ++ "]]"`. -/
def substLinkAux (core : List Char) : List Char → Option (List Char)
  | [] => none
  | c :: rest =>
    if listStarts linkToken (c :: rest) = true then
      match bracesSplit ((c :: rest).drop 6) with
      | some (cap, tail) => some (core ++ cap ++ (']' :: ']' :: tail))
      | none =>
        match substLinkAux core rest with
        | some out => some (c :: out)
        | none => none
    else
      match substLinkAux core rest with
      | some out => some (c :: out)
      | none => none

/-- `template.replace(/{{LINK(\|?.*)}}/, link.replace(/]]$/, "") + "$1]]")`:
the placeholder is replaced by the link stripped of its closing double
bracket, the captured pipe suffix, and a re-appended `]]`. -/
def substPlaceholder (template link : String) : String :=
  match substLinkAux (linkCore link).data template.data with
  | some out => ⟨out⟩
  | none => template

/-- A compiled `lineFormatFrom` regular expression, as its first-match
replace function. -/
abbrev Fmt := String → String → String

/-- The persisted plugin settings record. -/
structure Settings where
  linkText : String
  copiedLinkText : String
  lineFormatFrom : String
  lineFormatTo : String
  removeLeadingWhitespace : Bool

/-- The source's DEFAULT_SETTINGS value. -/
def DEFAULT_SETTINGS : Settings :=
  { linkText := ""
    copiedLinkText := "(see {{LINK}})"
    lineFormatFrom := "\\s*$"
    lineFormatTo := " (see {{LINK}})"
    removeLeadingWhitespace := true }

/-- An editor cursor position (line, column). -/
structure Pos where
  line : Nat
  ch : Nat
deriving DecidableEq

/-- The four copy modes. -/
inductive CopyTypes where
  | SeparateLines
  | CombinedLines
  | LinkOnly
  | LinkOnlyEmbed
deriving DecidableEq

/-- Return value of `validateRegex`. -/
structure RegexValidation where
  valid : Bool
  string : String
deriving DecidableEq

/-- `validateRegex`: un-double-escape the pattern, then try to compile it
(`new RegExp(updated, "u")`, modelled by the `tryCompile` oracle); on
failure report the pattern together with the compiler error. -/
def validateRegex (tryCompile : String → Except String Fmt)
    (regexString : String) : RegexValidation :=
  let updated := unescapeJson regexString
  match tryCompile updated with
  | Except.ok _ => ⟨true, updated⟩
  | Except.error e => ⟨false, "\"" ++ updated ++ "\": \"" ++ e ++ "\""⟩

/-- The `characters` alphabet of `genID`. -/
def characters : String := "abcdefghijklmnopqrstuvwxyz-0123456789"

/-- `characters[i]` for a random index `i` below `characters.length`. -/
def pickChar (r : Fin 37) : Char := characters.data.getD r.val 'a'

/-- The `while (id.length < length)` loop body of `genID`: each iteration
appends one character, so with the default length 5 the loop runs five
times; fuel 5 suffices. -/
def genIDLoop (pick : Nat → Char) : Nat → Nat → List Char → List Char
  | 0, _, acc => acc
  | fuel + 1, k, acc =>
    if acc.length < 5 then genIDLoop pick fuel (k + 1) (acc ++ [pick k])
    else acc

/-- `genID` with the default length 5 (`id.slice(0, length)` after the
loop). -/
def genID (pick : Nat → Char) : String := ⟨(genIDLoop pick 5 0 []).take 5⟩

/-- The identifier produced by the `call`-th `genID()` invocation of one
transform run. -/
def mintedID (rand : Nat → Nat → Fin 37) (call : Nat) : String :=
  genID (fun k => pickChar (rand call k))

/-- Steps 2-3 of the per-line algorithm: the leading-whitespace strip for
a collapsed first line, then the selection-boundary slice (which, when it
fires, recomputes from the raw line). -/
def copySlice (rlw : Bool) (minLine maxLine fromCh toCh lineNumber : Nat)
    (line0 : String) : String :=
  let copied1 :=
    if rlw = true ∧ lineNumber = minLine ∧ fromCh = toCh then dropLeadingWs line0
    else line0
  if (lineNumber = minLine ∨ lineNumber = maxLine) ∧
      ¬ (minLine = maxLine ∧ fromCh = toCh) then
    jsSlice line0 (if lineNumber = minLine then (fromCh : Int) else 0)
      (if lineNumber = maxLine then (toCh : Int) else (line0.length : Int) - 1)
  else copied1

/-- The anchor/link step (source lines 103-152) for a successfully
compiled `lineFormatFrom`: returns (updated source line, copy text,
mint counter after the step). -/
def anchorOk (f : Fmt) (mkLink : String → String) (rand : Nat → Nat → Fin 37)
    (settings : Settings) (copy : CopyTypes) (minLine lineNumber : Nat)
    (line0 copied2 : String) (minted : Nat) : String × String × Nat :=
  if copy = CopyTypes.SeparateLines ∨ lineNumber = minLine then
    match matchBlockID line0 with
    | none =>
      let newID := "^" ++ mintedID rand minted
      let link := mkLink ("#" ++ newID)
      let line1 := rstrip line0 ++ " " ++ newID
      if copy = CopyTypes.LinkOnly ∨ copy = CopyTypes.LinkOnlyEmbed then
        let link2 := (if copy = CopyTypes.LinkOnlyEmbed then "!" else "") ++ link
        (line1,
         if copy = CopyTypes.LinkOnlyEmbed then link2
         else substPlaceholder settings.copiedLinkText link2,
         minted + 1)
      else
        (line1, f copied2 (substPlaceholder settings.lineFormatTo link), minted + 1)
    | some bid =>
      let link := mkLink ("#" ++ bid)
      if copy = CopyTypes.LinkOnly ∨ copy = CopyTypes.LinkOnlyEmbed then
        let link2 := (if copy = CopyTypes.LinkOnlyEmbed then "!" else "") ++ link
        (line0,
         if copy = CopyTypes.LinkOnlyEmbed then link2
         else substPlaceholder settings.copiedLinkText link2,
         minted)
      else
        (line0,
         f (stripBlockID copied2) (substPlaceholder settings.lineFormatTo link),
         minted)
  else (line0, copied2, minted)

/-- The anchor/link step as executed: the branches that replace via the
configured `lineFormatFrom` construct `new RegExp(settings.lineFormatFrom,
"u")` on the spot, so if that raw pattern does not compile they throw
(`none`). -/
def anchorStep (fmtE : Except String Fmt) (mkLink : String → String)
    (rand : Nat → Nat → Fin 37) (settings : Settings) (copy : CopyTypes)
    (minLine lineNumber : Nat) (line0 copied2 : String) (minted : Nat) :
    Option (String × String × Nat) :=
  if copy = CopyTypes.SeparateLines ∨ lineNumber = minLine then
    match matchBlockID line0 with
    | none =>
      let newID := "^" ++ mintedID rand minted
      let link := mkLink ("#" ++ newID)
      let line1 := rstrip line0 ++ " " ++ newID
      if copy = CopyTypes.LinkOnly ∨ copy = CopyTypes.LinkOnlyEmbed then
        let link2 := (if copy = CopyTypes.LinkOnlyEmbed then "!" else "") ++ link
        some (line1,
          if copy = CopyTypes.LinkOnlyEmbed then link2
          else substPlaceholder settings.copiedLinkText link2,
          minted + 1)
      else
        match fmtE with
        | Except.error _ => none
        | Except.ok f =>
          some (line1, f copied2 (substPlaceholder settings.lineFormatTo link),
            minted + 1)
    | some bid =>
      let link := mkLink ("#" ++ bid)
      if copy = CopyTypes.LinkOnly ∨ copy = CopyTypes.LinkOnlyEmbed then
        let link2 := (if copy = CopyTypes.LinkOnlyEmbed then "!" else "") ++ link
        some (line0,
          if copy = CopyTypes.LinkOnlyEmbed then link2
          else substPlaceholder settings.copiedLinkText link2,
          minted)
      else
        match fmtE with
        | Except.error _ => none
        | Except.ok f =>
          some (line0,
            f (stripBlockID copied2) (substPlaceholder settings.lineFormatTo link),
            minted)
  else some (line0, copied2, minted)

/-- One loop iteration (source lines 75-163), total version for a
successfully compiled pattern: (updated source line, emitted copy line if
any, mint counter). -/
def processLineOk (f : Fmt) (mkLink : String → String)
    (rand : Nat → Nat → Fin 37) (settings : Settings) (copy : CopyTypes)
    (minLine maxLine fromCh toCh lineNumber : Nat) (line0 : String)
    (minted : Nat) : String × Option String × Nat :=
  let copied2 := copySlice settings.removeLeadingWhitespace minLine maxLine
    fromCh toCh lineNumber line0
  if isAllWs line0 = true ∧ ¬ (lineNumber = minLine ∧ minLine = maxLine) then
    (line0, some copied2, minted)
  else
    let a := anchorOk f mkLink rand settings copy minLine lineNumber line0
      copied2 minted
    (a.1,
     if (copy = CopyTypes.LinkOnly ∨ copy = CopyTypes.LinkOnlyEmbed) ∧
         ¬ lineNumber = minLine then none
     else some a.2.1,
     a.2.2)

/-- One loop iteration as executed (may throw while constructing the raw
`lineFormatFrom` regular expression). -/
def processLine (fmtE : Except String Fmt) (mkLink : String → String)
    (rand : Nat → Nat → Fin 37) (settings : Settings) (copy : CopyTypes)
    (minLine maxLine fromCh toCh lineNumber : Nat) (line0 : String)
    (minted : Nat) : Option (String × Option String × Nat) :=
  let copied2 := copySlice settings.removeLeadingWhitespace minLine maxLine
    fromCh toCh lineNumber line0
  if isAllWs line0 = true ∧ ¬ (lineNumber = minLine ∧ minLine = maxLine) then
    some (line0, some copied2, minted)
  else
    match anchorStep fmtE mkLink rand settings copy minLine lineNumber line0
      copied2 minted with
    | none => none
    | some a =>
      some (a.1,
        if (copy = CopyTypes.LinkOnly ∨ copy = CopyTypes.LinkOnlyEmbed) ∧
            ¬ lineNumber = minLine then none
        else some a.2.1,
        a.2.2)

/-- The `for` loop over the selected line range, total version: given the
number of remaining lines, the current line number and the mint counter,
returns (updated source lines, emitted copy lines, final mint counter). -/
def runLoopOk (f : Fmt) (mkLink : String → String)
    (rand : Nat → Nat → Fin 37) (settings : Settings) (copy : CopyTypes)
    (lines : List String) (minLine maxLine fromCh toCh : Nat) :
    Nat → Nat → Nat → List String × List String × Nat
  | 0, _, minted => ([], [], minted)
  | k + 1, ln, minted =>
    let step := processLineOk f mkLink rand settings copy minLine maxLine
      fromCh toCh ln (lines.getD ln "") minted
    let rest := runLoopOk f mkLink rand settings copy lines minLine maxLine
      fromCh toCh k (ln + 1) step.2.2
    (step.1 :: rest.1, step.2.1.toList ++ rest.2.1, rest.2.2)

/-- The `for` loop as executed (a regular-expression construction error
aborts the whole invocation with an uncaught exception). -/
def runLoop (fmtE : Except String Fmt) (mkLink : String → String)
    (rand : Nat → Nat → Fin 37) (settings : Settings) (copy : CopyTypes)
    (lines : List String) (minLine maxLine fromCh toCh : Nat) :
    Nat → Nat → Nat → Option (List String × List String × Nat)
  | 0, _, minted => some ([], [], minted)
  | k + 1, ln, minted =>
    match processLine fmtE mkLink rand settings copy minLine maxLine fromCh
      toCh ln (lines.getD ln "") minted with
    | none => none
    | some step =>
      match runLoop fmtE mkLink rand settings copy lines minLine maxLine
        fromCh toCh k (ln + 1) step.2.2 with
      | none => none
      | some rest => some (step.1 :: rest.1, step.2.1.toList ++ rest.2.1, rest.2.2)

/-- The observable result of one `copyForwardLines` invocation:
aborted with a notice (invalid `lineFormatFrom`), crashed on an uncaught
exception, or completed with the copy lines, the updated source lines and
the number of newly minted identifiers. -/
inductive Outcome where
  | aborted (notice : String)
  | crashed
  | done (copiedLines updatedLines : List String) (minted : Nat)
deriving DecidableEq

/-- `copyForwardLines` (source lines 46-176). -/
def copyForwardLines (tryCompile : String → Except String Fmt)
    (mkLink : String → String) (rand : Nat → Nat → Fin 37)
    (lines : List String) (cursorFrom cursorTo : Pos)
    (settings : Settings) (copy : CopyTypes) : Outcome :=
  let regexValidation := validateRegex tryCompile settings.lineFormatFrom
  if ¬ regexValidation.valid = true then
    Outcome.aborted ("Error: 'From' setting is invalid:\n\n" ++
      regexValidation.string ++
      "\n\nPlease update the Carry-Forward settings and try again.")
  else
    let minLine := cursorFrom.line
    let maxLine := cursorTo.line
    match runLoop (tryCompile settings.lineFormatFrom) mkLink rand settings
      copy lines minLine maxLine cursorFrom.ch cursorTo.ch
      (maxLine + 1 - minLine) minLine 0 with
    | none => Outcome.crashed
    | some r => Outcome.done r.2.1 r.1 r.2.2

/-- The side effects: the document after applying the edit transaction
(replace lines `minLine..maxLine` by the updated lines) and the text
written to the clipboard, if any.  An aborted or crashed invocation
touches neither. -/
def applyOutcome (doc : List String) (minLine maxLine : Nat) :
    Outcome → List String × Option String
  | Outcome.aborted _ => (doc, none)
  | Outcome.crashed => (doc, none)
  | Outcome.done cs us _ =>
    (doc.take minLine ++ us ++ doc.drop (maxLine + 1),
     some (String.intercalate "\n" cs))

/-- Modelled from the amended specification words for anchored-line
detection: the line ends with an anchor token (a caret followed by one or
more alphanumeric-or-hyphen characters) that is immediately preceded by a
whitespace character or a caret character. -/
def trailingAnchorSpec (l : String) : Prop :=
  ∃ p c t, l.data = p ++ c :: '^' :: t ∧ (jsWhitespace c = true ∨ c = '^') ∧
    ¬ t = [] ∧ t.all isBlockIDChar = true

/-- A host regex-compiler model that accepts every pattern and compiles it
to the default `\s*$` replace semantics; used to instantiate theorems at
concrete inputs. -/
def okCompile : String → Except String Fmt :=
  fun _ => Except.ok defaultFmtReplace

/-- A host regex-compiler model that rejects every pattern with a fixed
JavaScript error message. -/
def errCompile : String → Except String Fmt :=
  fun _ => Except.error "SyntaxError: Invalid regular expression: missing ]"

/-- A concrete host link formatter for instantiations. -/
def demoLink : String → String := fun sub => "[[note" ++ sub ++ "]]"

/-- A concrete random index stream (always zero, so `genID` yields
`aaaaa`). -/
def zeroRand : Nat → Nat → Fin 37 := fun _ _ => ⟨0, by decide⟩

/-! Basic facts about the embedded primitives. -/

theorem strDataAppend (a b : String) : (a ++ b).data = a.data ++ b.data := rfl

theorem strMkData (l : List Char) : (String.mk l).data = l := rfl

theorem genID_eval (pick : Nat → Char) :
    genID pick = ⟨[pick 0, pick 1, pick 2, pick 3, pick 4]⟩ := rfl

theorem pickChar_mem (r : Fin 37) : pickChar r ∈ characters.data := by
  revert r; decide

theorem pickChar_shape (r : Fin 37) :
    ('a' ≤ pickChar r ∧ pickChar r ≤ 'z') ∨
    ('0' ≤ pickChar r ∧ pickChar r ≤ '9') ∨ pickChar r = '-' := by
  revert r; decide

theorem mintedID_eval (rand : Nat → Nat → Fin 37) (call : Nat) :
    mintedID rand call =
      ⟨[pickChar (rand call 0), pickChar (rand call 1), pickChar (rand call 2),
        pickChar (rand call 3), pickChar (rand call 4)]⟩ := rfl

theorem mintedID_length (rand : Nat → Nat → Fin 37) (call : Nat) :
    (mintedID rand call).length = 5 := rfl

theorem mintedID_chars (rand : Nat → Nat → Fin 37) (call : Nat) :
    (mintedID rand call).data.all
      (fun ch => decide (('a' ≤ ch ∧ ch ≤ 'z') ∨ ('0' ≤ ch ∧ ch ≤ '9') ∨ ch = '-')) = true := by
  rw [mintedID_eval, strMkData]
  simp only [List.all_cons, List.all_nil, Bool.and_true, Bool.and_eq_true,
    decide_eq_true_eq]
  exact ⟨pickChar_shape _, pickChar_shape _, pickChar_shape _,
    pickChar_shape _, pickChar_shape _⟩

theorem mintedID_blockIDChars (rand : Nat → Nat → Fin 37) (call : Nat) :
    (mintedID rand call).data.all isBlockIDChar = true := by
  have h : ∀ r : Fin 37, isBlockIDChar (pickChar r) = true := by decide
  rw [mintedID_eval, strMkData]
  simp only [List.all_cons, List.all_nil, Bool.and_true, h, Bool.and_self]

/-! Structure of `blockIDRegex` matches. -/

theorem splitBlockID_sound :
    ∀ (l : List Char) (prev : Option Char) (p m : List Char),
      splitBlockID prev l = some (p, m) →
      l = p ++ m ∧
      (∃ t, m = '^' :: t ∧ ¬ t = [] ∧ t.all isBlockIDChar = true) ∧
      ((p = [] ∧ prevOK prev = true) ∨
        ∃ q c0, p = q ++ [c0] ∧ prevOK (some c0) = true) := by
  intro l
  induction l with
  | nil => intro prev p m h; simp [splitBlockID] at h
  | cons c rest ih =>
    intro prev p m h
    rw [splitBlockID] at h
    by_cases hc : prevOK prev = true ∧ c = '^' ∧ ¬ rest = [] ∧
        rest.all isBlockIDChar = true
    · rw [if_pos hc] at h
      obtain ⟨h1, h2⟩ := Prod.mk.injEq .. ▸ Option.some.injEq .. ▸ h
      subst h1; subst h2
      refine ⟨rfl, ⟨rest, ?_, hc.2.2.1, hc.2.2.2⟩, Or.inl ⟨rfl, hc.1⟩⟩
      rw [hc.2.1]
    · rw [if_neg hc] at h
      cases hrec : splitBlockID (some c) rest with
      | none => rw [hrec] at h; exact absurd h (by simp)
      | some pm =>
        rw [hrec] at h
        obtain ⟨p2, m2⟩ := pm
        obtain ⟨h1, h2⟩ := Prod.mk.injEq .. ▸ Option.some.injEq .. ▸ h
        obtain ⟨heq, hshape, hprev⟩ := ih (some c) p2 m2 hrec
        subst h1; subst h2
        refine ⟨by rw [heq]; rfl, hshape, ?_⟩
        rcases hprev with ⟨hp2, hpo⟩ | ⟨q, c0, hq, hpo⟩
        · subst hp2; exact Or.inr ⟨[], c, rfl, hpo⟩
        · subst hq; exact Or.inr ⟨c :: q, c0, rfl, hpo⟩

theorem splitBlockID_complete :
    ∀ (pLeft : List Char) (prev : Option Char) (c0 : Char) (t : List Char),
      prevOK (some c0) = true → ¬ t = [] → t.all isBlockIDChar = true →
      (splitBlockID prev (pLeft ++ c0 :: '^' :: t)).isSome = true := by
  intro pLeft
  induction pLeft with
  | nil =>
    intro prev c0 t hpo ht hall
    rw [List.nil_append, splitBlockID]
    by_cases hc : prevOK prev = true ∧ c0 = '^' ∧ ¬ ('^' :: t) = [] ∧
        ('^' :: t).all isBlockIDChar = true
    · rw [if_pos hc]; rfl
    · rw [if_neg hc, splitBlockID, if_pos ⟨hpo, rfl, ht, hall⟩]
      rfl
  | cons a pLeft' ih =>
    intro prev c0 t hpo ht hall
    rw [List.cons_append, splitBlockID]
    by_cases hc : prevOK prev = true ∧ a = '^' ∧
        ¬ (pLeft' ++ c0 :: '^' :: t) = [] ∧
        (pLeft' ++ c0 :: '^' :: t).all isBlockIDChar = true
    · rw [if_pos hc]; rfl
    · rw [if_neg hc]
      have hrec := ih (some a) c0 t hpo ht hall
      cases hx : splitBlockID (some a) (pLeft' ++ c0 :: '^' :: t) with
      | none => rw [hx] at hrec; exact absurd hrec (by simp)
      | some pm => obtain ⟨p2, m2⟩ := pm; rfl

theorem wsNotBlockID : ∀ ch ∈ wsChars, isBlockIDChar ch = false := by decide

theorem prevOK_not_blockID (c : Char) (h : prevOK (some c) = true) :
    isBlockIDChar c = false := by
  simp only [prevOK, Bool.or_eq_true, decide_eq_true_eq] at h
  rcases h with hw | he
  · exact wsNotBlockID c (by simpa [jsWhitespace] using hw)
  · subst he; decide

/-- After the first `blockIDRegex` match is removed, the remainder ends in
the lookbehind character, so no trailing anchor remains in the copy. -/
theorem stripBlockID_no_match (s : String) :
    matchBlockID (stripBlockID s) = none := by
  unfold stripBlockID
  cases h : splitBlockID none s.data with
  | none => unfold matchBlockID; rw [h]
  | some pm =>
    obtain ⟨p, m⟩ := pm
    unfold matchBlockID
    rw [strMkData]
    cases h2 : splitBlockID none p with
    | none => rfl
    | some pm2 =>
      exfalso
      obtain ⟨p2, m2⟩ := pm2
      obtain ⟨heq2, ⟨t2, hm2, ht2, hall2⟩, _⟩ := splitBlockID_sound p none p2 m2 h2
      obtain ⟨_, _, hprev⟩ := splitBlockID_sound s.data none p m h
      rcases hprev with ⟨_, hpo⟩ | ⟨q, c0, hq, hpo⟩
      · simp [prevOK] at hpo
      · have hrev1 : p.reverse.head? = some c0 := by
          rw [hq, List.reverse_append]; rfl
        obtain ⟨x, xs, hx⟩ : ∃ x xs, t2.reverse = x :: xs := by
          cases hx : t2.reverse with
          | nil => exact absurd (List.reverse_eq_nil_iff.mp hx) ht2
          | cons x xs => exact ⟨x, xs, rfl⟩
        have hxmem : x ∈ t2 := by
          rw [← List.mem_reverse, hx]; exact List.mem_cons_self x xs
        have hrev2 : p.reverse.head? = some x := by
          rw [heq2, hm2, List.reverse_append, List.reverse_cons,
            List.append_assoc, hx]
          rfl
        have hxc : x = c0 := by
          rw [hrev1] at hrev2; exact (Option.some.injEq .. ▸ hrev2).symm
        have hbad := List.all_eq_true.mp hall2 x hxmem
        rw [hxc, prevOK_not_blockID c0 hpo] at hbad
        exact Bool.false_ne_true hbad

/-- Scanning `u ++ " ^" ++ g` with `g` a nonempty identifier finds exactly
the trailing anchor: the space blocks any earlier end-anchored match. -/
theorem splitBlockID_scan (g : List Char) (hg : ¬ g = [])
    (hall : g.all isBlockIDChar = true) :
    ∀ (u : List Char) (prev : Option Char),
      splitBlockID prev (u ++ ' ' :: '^' :: g) = some (u ++ [' '], '^' :: g) := by
  intro u
  induction u with
  | nil =>
    intro prev
    rw [List.nil_append, splitBlockID]
    have hc : ¬ (prevOK prev = true ∧ ' ' = '^' ∧ ¬ ('^' :: g) = [] ∧
        ('^' :: g).all isBlockIDChar = true) := by
      intro hcon; exact absurd hcon.2.1 (by decide)
    rw [if_neg hc, splitBlockID,
      if_pos ⟨by decide, rfl, hg, hall⟩]
    rfl
  | cons a u' ih =>
    intro prev
    rw [List.cons_append, splitBlockID]
    have hc : ¬ (prevOK prev = true ∧ a = '^' ∧
        ¬ (u' ++ ' ' :: '^' :: g) = [] ∧
        (u' ++ ' ' :: '^' :: g).all isBlockIDChar = true) := by
      intro hcon
      have := List.all_eq_true.mp hcon.2.2.2 ' '
        (by rw [List.mem_append]; exact Or.inr (List.mem_cons_self _ _))
      exact absurd this (by decide)
    rw [if_neg hc, ih (some a)]
    rfl

/-! Bridges between the executed and the total forms. -/

theorem anchorStep_ok (f : Fmt) (mkLink : String → String)
    (rand : Nat → Nat → Fin 37) (settings : Settings) (copy : CopyTypes)
    (minLine lineNumber : Nat) (line0 copied2 : String) (minted : Nat) :
    anchorStep (Except.ok f) mkLink rand settings copy minLine lineNumber
        line0 copied2 minted =
      some (anchorOk f mkLink rand settings copy minLine lineNumber line0
        copied2 minted) := by
  unfold anchorStep anchorOk
  by_cases h1 : copy = CopyTypes.SeparateLines ∨ lineNumber = minLine
  · simp only [if_pos h1]
    cases matchBlockID line0 with
    | none =>
      by_cases h2 : copy = CopyTypes.LinkOnly ∨ copy = CopyTypes.LinkOnlyEmbed
      · simp only [if_pos h2]
      · simp only [if_neg h2]
    | some bid =>
      by_cases h2 : copy = CopyTypes.LinkOnly ∨ copy = CopyTypes.LinkOnlyEmbed
      · simp only [if_pos h2]
      · simp only [if_neg h2]
  · simp only [if_neg h1]

theorem processLine_ok (f : Fmt) (mkLink : String → String)
    (rand : Nat → Nat → Fin 37) (settings : Settings) (copy : CopyTypes)
    (minLine maxLine fromCh toCh lineNumber : Nat) (line0 : String)
    (minted : Nat) :
    processLine (Except.ok f) mkLink rand settings copy minLine maxLine
        fromCh toCh lineNumber line0 minted =
      some (processLineOk f mkLink rand settings copy minLine maxLine fromCh
        toCh lineNumber line0 minted) := by
  unfold processLine processLineOk
  dsimp only
  split
  · rfl
  · rw [anchorStep_ok]

theorem runLoop_ok (f : Fmt) (mkLink : String → String)
    (rand : Nat → Nat → Fin 37) (settings : Settings) (copy : CopyTypes)
    (lines : List String) (minLine maxLine fromCh toCh : Nat) :
    ∀ (k ln m : Nat),
      runLoop (Except.ok f) mkLink rand settings copy lines minLine maxLine
          fromCh toCh k ln m =
        some (runLoopOk f mkLink rand settings copy lines minLine maxLine
          fromCh toCh k ln m) := by
  intro k
  induction k with
  | zero => intro ln m; rfl
  | succ k ih =>
    intro ln m
    rw [runLoop, processLine_ok]
    dsimp only
    rw [ih]
    rfl

theorem validateRegex_ok (tryCompile : String → Except String Fmt)
    (s : String) (f0 : Fmt)
    (h : tryCompile (unescapeJson s) = Except.ok f0) :
    validateRegex tryCompile s = ⟨true, unescapeJson s⟩ := by
  unfold validateRegex
  dsimp only
  rw [h]

theorem copyForwardLines_eq (tryCompile : String → Except String Fmt)
    (mkLink : String → String) (rand : Nat → Nat → Fin 37)
    (lines : List String) (cursorFrom cursorTo : Pos) (settings : Settings)
    (copy : CopyTypes) (f0 f : Fmt)
    (hv : tryCompile (unescapeJson settings.lineFormatFrom) = Except.ok f0)
    (hr : tryCompile settings.lineFormatFrom = Except.ok f) :
    copyForwardLines tryCompile mkLink rand lines cursorFrom cursorTo
        settings copy =
      (fun r => Outcome.done r.2.1 r.1 r.2.2)
        (runLoopOk f mkLink rand settings copy lines cursorFrom.line
          cursorTo.line cursorFrom.ch cursorTo.ch
          (cursorTo.line + 1 - cursorFrom.line) cursorFrom.line 0) := by
  unfold copyForwardLines
  rw [validateRegex_ok tryCompile settings.lineFormatFrom f0 hv]
  dsimp only
  rw [if_neg (by simp), hr, runLoop_ok]

/-! Structural facts about the loop. -/

theorem runLoopOk_us_length (f : Fmt) (mkLink : String → String)
    (rand : Nat → Nat → Fin 37) (settings : Settings) (copy : CopyTypes)
    (lines : List String) (minLine maxLine fromCh toCh : Nat) :
    ∀ (k ln m : Nat),
      (runLoopOk f mkLink rand settings copy lines minLine maxLine fromCh
        toCh k ln m).1.length = k := by
  intro k
  induction k with
  | zero => intro ln m; rfl
  | succ k ih =>
    intro ln m
    rw [runLoopOk]
    dsimp only
    rw [List.length_cons, ih]

theorem runLoopOk_us_get (f : Fmt) (mkLink : String → String)
    (rand : Nat → Nat → Fin 37) (settings : Settings) (copy : CopyTypes)
    (lines : List String) (minLine maxLine fromCh toCh : Nat) :
    ∀ (k ln m i : Nat), i < k →
      ∃ m2, (runLoopOk f mkLink rand settings copy lines minLine maxLine
          fromCh toCh k ln m).1.get? i =
        some ((processLineOk f mkLink rand settings copy minLine maxLine
          fromCh toCh (ln + i) (lines.getD (ln + i) "") m2).1) := by
  intro k
  induction k with
  | zero => intro ln m i hi; exact absurd hi (Nat.not_lt_zero i)
  | succ k ih =>
    intro ln m i hi
    rw [runLoopOk]
    dsimp only
    cases i with
    | zero =>
      refine ⟨m, ?_⟩
      rw [Nat.add_zero]
      rfl
    | succ i =>
      obtain ⟨m2, hm2⟩ := ih (ln + 1)
        ((processLineOk f mkLink rand settings copy minLine maxLine fromCh
          toCh ln (lines.getD ln "") m).2.2) i (Nat.lt_of_succ_lt_succ hi)
      refine ⟨m2, ?_⟩
      rw [List.get?_cons_succ, hm2]
      have harith : ln + 1 + i = ln + (i + 1) := by omega
      rw [harith]

theorem processLineOk_sl_some (f : Fmt) (mkLink : String → String)
    (rand : Nat → Nat → Fin 37) (settings : Settings)
    (minLine maxLine fromCh toCh ln : Nat) (l0 : String) (m : Nat) :
    ∃ s, (processLineOk f mkLink rand settings CopyTypes.SeparateLines
      minLine maxLine fromCh toCh ln l0 m).2.1 = some s := by
  unfold processLineOk
  dsimp only
  split
  · exact ⟨_, rfl⟩
  · have hc : ¬ ((CopyTypes.SeparateLines = CopyTypes.LinkOnly ∨
        CopyTypes.SeparateLines = CopyTypes.LinkOnlyEmbed) ∧ ¬ ln = minLine) := by
      intro hcon
      rcases hcon.1 with h | h <;> exact CopyTypes.noConfusion h
    rw [if_neg hc]
    exact ⟨_, rfl⟩

theorem runLoopOk_sl_cs_length (f : Fmt) (mkLink : String → String)
    (rand : Nat → Nat → Fin 37) (settings : Settings)
    (lines : List String) (minLine maxLine fromCh toCh : Nat) :
    ∀ (k ln m : Nat),
      (runLoopOk f mkLink rand settings CopyTypes.SeparateLines lines minLine
        maxLine fromCh toCh k ln m).2.1.length = k := by
  intro k
  induction k with
  | zero => intro ln m; rfl
  | succ k ih =>
    intro ln m
    rw [runLoopOk]
    dsimp only
    obtain ⟨s, hs⟩ := processLineOk_sl_some f mkLink rand settings minLine
      maxLine fromCh toCh ln (lines.getD ln "") m
    rw [hs]
    dsimp only [Option.toList]
    rw [List.singleton_append, List.length_cons, ih]

theorem runLoopOk_sl_cs_get (f : Fmt) (mkLink : String → String)
    (rand : Nat → Nat → Fin 37) (settings : Settings)
    (lines : List String) (minLine maxLine fromCh toCh : Nat) :
    ∀ (k ln m i : Nat), i < k →
      ∃ m2, (runLoopOk f mkLink rand settings CopyTypes.SeparateLines lines
          minLine maxLine fromCh toCh k ln m).2.1.get? i =
        (processLineOk f mkLink rand settings CopyTypes.SeparateLines minLine
          maxLine fromCh toCh (ln + i) (lines.getD (ln + i) "") m2).2.1 := by
  intro k
  induction k with
  | zero => intro ln m i hi; exact absurd hi (Nat.not_lt_zero i)
  | succ k ih =>
    intro ln m i hi
    rw [runLoopOk]
    dsimp only
    obtain ⟨s, hs⟩ := processLineOk_sl_some f mkLink rand settings minLine
      maxLine fromCh toCh ln (lines.getD ln "") m
    rw [hs]
    dsimp only [Option.toList]
    rw [List.singleton_append]
    cases i with
    | zero =>
      refine ⟨m, ?_⟩
      have hs0 : (processLineOk f mkLink rand settings CopyTypes.SeparateLines
          minLine maxLine fromCh toCh (ln + 0) (lines.getD (ln + 0) "")
          m).2.1 = some s := hs
      rw [hs0]
      rfl
    | succ i =>
      obtain ⟨m2, hm2⟩ := ih (ln + 1)
        ((processLineOk f mkLink rand settings CopyTypes.SeparateLines minLine
          maxLine fromCh toCh ln (lines.getD ln "") m).2.2) i
        (Nat.lt_of_succ_lt_succ hi)
      refine ⟨m2, ?_⟩
      rw [List.get?_cons_succ, hm2]
      have harith : ln + 1 + i = ln + (i + 1) := by omega
      rw [harith]

theorem processLineOk_lo_none (f : Fmt) (mkLink : String → String)
    (rand : Nat → Nat → Fin 37) (settings : Settings) (copy : CopyTypes)
    (minLine maxLine fromCh toCh ln : Nat) (l0 : String) (m : Nat)
    (hcopy : copy = CopyTypes.LinkOnly ∨ copy = CopyTypes.LinkOnlyEmbed)
    (hln : ¬ ln = minLine) (hnb : isAllWs l0 = false) :
    (processLineOk f mkLink rand settings copy minLine maxLine fromCh toCh ln
      l0 m).2.1 = none := by
  unfold processLineOk
  dsimp only
  rw [if_neg (fun hcon => by rw [hnb] at hcon; exact Bool.false_ne_true hcon.1)]
  dsimp only
  rw [if_pos ⟨hcopy, hln⟩]

theorem runLoopOk_lo_cs_nil (f : Fmt) (mkLink : String → String)
    (rand : Nat → Nat → Fin 37) (settings : Settings) (copy : CopyTypes)
    (lines : List String) (minLine maxLine fromCh toCh : Nat)
    (hcopy : copy = CopyTypes.LinkOnly ∨ copy = CopyTypes.LinkOnlyEmbed) :
    ∀ (k ln m : Nat), minLine < ln →
      (∀ i, i < k → isAllWs (lines.getD (ln + i) "") = false) →
      (runLoopOk f mkLink rand settings copy lines minLine maxLine fromCh
        toCh k ln m).2.1 = [] := by
  intro k
  induction k with
  | zero => intro ln m _ _; rfl
  | succ k ih =>
    intro ln m hln hnb
    rw [runLoopOk]
    dsimp only
    have h0 : isAllWs (lines.getD ln "") = false := by
      have := hnb 0 (Nat.succ_pos k)
      rwa [Nat.add_zero] at this
    rw [processLineOk_lo_none f mkLink rand settings copy minLine maxLine
      fromCh toCh ln (lines.getD ln "") m hcopy
      (fun hcon => absurd (hcon ▸ hln) (Nat.lt_irrefl minLine)) h0]
    dsimp only [Option.toList]
    rw [List.nil_append]
    exact ih (ln + 1) _ (Nat.lt_succ_of_lt hln)
      (fun i hi => by
        have := hnb (i + 1) (Nat.succ_lt_succ hi)
        have harith : ln + (i + 1) = ln + 1 + i := by omega
        rwa [harith] at this)

theorem processLineOk_min_some (f : Fmt) (mkLink : String → String)
    (rand : Nat → Nat → Fin 37) (settings : Settings) (copy : CopyTypes)
    (minLine maxLine fromCh toCh : Nat) (l0 : String) (m : Nat) :
    ∃ s, (processLineOk f mkLink rand settings copy minLine maxLine fromCh
      toCh minLine l0 m).2.1 = some s := by
  unfold processLineOk
  dsimp only
  split
  · exact ⟨_, rfl⟩
  · exact ⟨_, by rw [if_neg (fun hcon => hcon.2 rfl)]⟩

theorem copySlice_interior (rlw : Bool)
    (minLine maxLine fromCh toCh ln : Nat) (l0 : String)
    (h1 : ¬ ln = minLine) (h2 : ¬ ln = maxLine) :
    copySlice rlw minLine maxLine fromCh toCh ln l0 = l0 := by
  unfold copySlice
  dsimp only
  rw [if_neg (fun hcon => hcon.1.elim h1 h2),
    if_neg (fun hcon => h1 hcon.2.1)]

theorem processLineOk_blank_interior (f : Fmt) (mkLink : String → String)
    (rand : Nat → Nat → Fin 37) (settings : Settings) (copy : CopyTypes)
    (minLine maxLine fromCh toCh ln : Nat) (l0 : String) (m : Nat)
    (h1 : ¬ ln = minLine) (h2 : ¬ ln = maxLine) (hb : isAllWs l0 = true) :
    processLineOk f mkLink rand settings copy minLine maxLine fromCh toCh ln
      l0 m = (l0, some l0, m) := by
  unfold processLineOk
  dsimp only
  rw [copySlice_interior settings.removeLeadingWhitespace minLine maxLine
    fromCh toCh ln l0 h1 h2]
  rw [if_pos ⟨hb, fun hcon => h1 hcon.1⟩]

theorem processLineOk_updated (f : Fmt) (mkLink : String → String)
    (rand : Nat → Nat → Fin 37) (settings : Settings) (copy : CopyTypes)
    (minLine maxLine fromCh toCh ln : Nat) (l0 : String) (m : Nat) :
    (processLineOk f mkLink rand settings copy minLine maxLine fromCh toCh ln
        l0 m).1 = l0 ∨
    (processLineOk f mkLink rand settings copy minLine maxLine fromCh toCh ln
        l0 m).1 = rstrip l0 ++ " " ++ ("^" ++ mintedID rand m) := by
  unfold processLineOk
  dsimp only
  split
  · exact Or.inl rfl
  · unfold anchorOk
    dsimp only
    by_cases h1 : copy = CopyTypes.SeparateLines ∨ ln = minLine
    · rw [if_pos h1]
      cases matchBlockID l0 with
      | none =>
        by_cases h2 : copy = CopyTypes.LinkOnly ∨ copy = CopyTypes.LinkOnlyEmbed
        · rw [if_pos h2]; exact Or.inr rfl
        · rw [if_neg h2]; exact Or.inr rfl
      | some bid =>
        dsimp only
        by_cases h2 : copy = CopyTypes.LinkOnly ∨ copy = CopyTypes.LinkOnlyEmbed
        · rw [if_pos h2]; exact Or.inl rfl
        · rw [if_neg h2]; exact Or.inl rfl
    · rw [if_neg h1]; exact Or.inl rfl

/-! String utilities and single-line computations. -/

theorem strExt (a b : String) (h : a.data = b.data) : a = b := by
  cases a; cases b; cases h; rfl

theorem strAppendAssoc (a b c : String) : a ++ b ++ c = a ++ (b ++ c) := by
  cases a; cases b; cases c
  exact congrArg String.mk (List.append_assoc _ _ _)

theorem mintedID_ne_nil (rand : Nat → Nat → Fin 37) (call : Nat) :
    ¬ (mintedID rand call).data = [] := by
  rw [mintedID_eval, strMkData]
  exact List.cons_ne_nil _ _

/-- A line of the form `rstrip s ++ " ^id"` (as produced when a fresh
anchor is appended) is detected by `blockIDRegex`, matching exactly the
appended anchor: re-running the transform reuses it. -/
theorem matchBlockID_rebuilt (s gid : String) (hg : ¬ gid.data = [])
    (hall : gid.data.all isBlockIDChar = true) :
    matchBlockID (rstrip s ++ " " ++ ("^" ++ gid)) = some ("^" ++ gid) := by
  unfold matchBlockID
  have hdata : (rstrip s ++ " " ++ ("^" ++ gid)).data =
      (rstrip s).data ++ ' ' :: '^' :: gid.data := by
    rw [strDataAppend, strDataAppend, List.append_assoc]
    rfl
  rw [hdata, splitBlockID_scan gid.data hg hall ((rstrip s).data) none]
  rfl

theorem copySlice_collapsed (rlw : Bool) (mn c : Nat) (l : String) :
    copySlice rlw mn mn c c mn l =
      if rlw = true then dropLeadingWs l else l := by
  unfold copySlice
  dsimp only
  rw [if_neg (fun hcon => hcon.2 ⟨rfl, rfl⟩)]
  by_cases hrl : rlw = true
  · rw [if_pos ⟨hrl, rfl, rfl⟩, if_pos hrl]
  · rw [if_neg (fun hcon => hrl hcon.1), if_neg hrl]

theorem validateRegex_err (tryCompile : String → Except String Fmt)
    (s e : String)
    (h : tryCompile (unescapeJson s) = Except.error e) :
    validateRegex tryCompile s =
      ⟨false, "\"" ++ unescapeJson s ++ "\": \"" ++ e ++ "\""⟩ := by
  unfold validateRegex
  dsimp only
  rw [h]

theorem runLoopOk_one (f : Fmt) (mkLink : String → String)
    (rand : Nat → Nat → Fin 37) (settings : Settings) (copy : CopyTypes)
    (lines : List String) (minLine maxLine fromCh toCh ln m : Nat) :
    runLoopOk f mkLink rand settings copy lines minLine maxLine fromCh toCh
        1 ln m =
      ([(processLineOk f mkLink rand settings copy minLine maxLine fromCh
          toCh ln (lines.getD ln "") m).1],
       (processLineOk f mkLink rand settings copy minLine maxLine fromCh
          toCh ln (lines.getD ln "") m).2.1.toList,
       (processLineOk f mkLink rand settings copy minLine maxLine fromCh
          toCh ln (lines.getD ln "") m).2.2) := by
  have h : runLoopOk f mkLink rand settings copy lines minLine maxLine fromCh
      toCh 1 ln m =
    ((processLineOk f mkLink rand settings copy minLine maxLine fromCh
        toCh ln (lines.getD ln "") m).1 :: [],
     (processLineOk f mkLink rand settings copy minLine maxLine fromCh
        toCh ln (lines.getD ln "") m).2.1.toList ++ [],
     (processLineOk f mkLink rand settings copy minLine maxLine fromCh
        toCh ln (lines.getD ln "") m).2.2) := rfl
  rw [h, List.append_nil]

theorem copyForwardLines_single (tryCompile : String → Except String Fmt)
    (mkLink : String → String) (rand : Nat → Nat → Fin 37) (l : String)
    (c : Nat) (settings : Settings) (copy : CopyTypes) (f0 f : Fmt)
    (hv : tryCompile (unescapeJson settings.lineFormatFrom) = Except.ok f0)
    (hr : tryCompile settings.lineFormatFrom = Except.ok f) :
    copyForwardLines tryCompile mkLink rand [l] ⟨0, c⟩ ⟨0, c⟩ settings copy =
      Outcome.done
        (processLineOk f mkLink rand settings copy 0 0 c c 0 l 0).2.1.toList
        [(processLineOk f mkLink rand settings copy 0 0 c c 0 l 0).1]
        (processLineOk f mkLink rand settings copy 0 0 c c 0 l 0).2.2 := by
  rw [copyForwardLines_eq tryCompile mkLink rand [l] ⟨0, c⟩ ⟨0, c⟩ settings
    copy f0 f hv hr]
  dsimp only
  have harith : (0 : Nat) + 1 - 0 = 1 := rfl
  rw [harith, runLoopOk_one]
  rfl

theorem anchorOk_existing_sl (f : Fmt) (mkLink : String → String)
    (rand : Nat → Nat → Fin 37) (settings : Settings)
    (minLine ln : Nat) (l0 copied2 : String) (m : Nat) (a : String)
    (ha : matchBlockID l0 = some a) :
    anchorOk f mkLink rand settings CopyTypes.SeparateLines minLine ln l0
        copied2 m =
      (l0, f (stripBlockID copied2)
        (substPlaceholder settings.lineFormatTo (mkLink ("#" ++ a))), m) := by
  unfold anchorOk
  rw [if_pos (Or.inl rfl), ha]
  dsimp only
  rw [if_neg ?_]
  intro hcon
  rcases hcon with h | h <;> exact CopyTypes.noConfusion h

theorem processLineOk_anchored_keep (f : Fmt) (mkLink : String → String)
    (rand : Nat → Nat → Fin 37) (settings : Settings) (copy : CopyTypes)
    (minLine maxLine fromCh toCh ln : Nat) (l0 : String) (m : Nat)
    (a : String) (ha : matchBlockID l0 = some a) :
    (processLineOk f mkLink rand settings copy minLine maxLine fromCh toCh
        ln l0 m).1 = l0 ∧
    (processLineOk f mkLink rand settings copy minLine maxLine fromCh toCh
        ln l0 m).2.2 = m := by
  unfold processLineOk
  dsimp only
  split
  · exact ⟨rfl, rfl⟩
  · unfold anchorOk
    dsimp only
    by_cases h1 : copy = CopyTypes.SeparateLines ∨ ln = minLine
    · rw [if_pos h1, ha]
      dsimp only
      by_cases h2 : copy = CopyTypes.LinkOnly ∨ copy = CopyTypes.LinkOnlyEmbed
      · rw [if_pos h2]; exact ⟨rfl, rfl⟩
      · rw [if_neg h2]; exact ⟨rfl, rfl⟩
    · rw [if_neg h1]; exact ⟨rfl, rfl⟩

theorem processLineOk_single_existing_sl (f : Fmt) (mkLink : String → String)
    (rand : Nat → Nat → Fin 37) (settings : Settings) (c : Nat)
    (l0 : String) (m : Nat) (a : String) (ha : matchBlockID l0 = some a) :
    processLineOk f mkLink rand settings CopyTypes.SeparateLines 0 0 c c 0
        l0 m =
      (l0, some (f (stripBlockID (copySlice settings.removeLeadingWhitespace
          0 0 c c 0 l0))
        (substPlaceholder settings.lineFormatTo (mkLink ("#" ++ a)))), m) := by
  unfold processLineOk
  dsimp only
  rw [if_neg (fun hcon => hcon.2 ⟨rfl, rfl⟩)]
  rw [anchorOk_existing_sl f mkLink rand settings 0 0 l0
    (copySlice settings.removeLeadingWhitespace 0 0 c c 0 l0) m a ha]
  dsimp only
  rw [if_neg (fun hcon => hcon.2 rfl)]

/-! The claims. -/

/-- C1: if `config.lineFormatFrom` does not compile as a regular
expression, `copyForwardLines` aborts before doing anything: the outcome
is `aborted` with a notice containing the offending (un-double-escaped)
pattern and the underlying compiler error, no source line is modified and
nothing is written to the clipboard. -/
theorem claim_c1_invalid_regex_aborts
    (tryCompile : String → Except String Fmt) (mkLink : String → String)
    (rand : Nat → Nat → Fin 37) (lines : List String)
    (cursorFrom cursorTo : Pos) (settings : Settings) (copy : CopyTypes)
    (e : String)
    (he : tryCompile (unescapeJson settings.lineFormatFrom) =
      Except.error e) :
    copyForwardLines tryCompile mkLink rand lines cursorFrom cursorTo
        settings copy =
      Outcome.aborted ("Error: 'From' setting is invalid:\n\n" ++
        ("\"" ++ unescapeJson settings.lineFormatFrom ++ "\": \"" ++ e ++ "\"") ++
        "\n\nPlease update the Carry-Forward settings and try again.") ∧
    applyOutcome lines cursorFrom.line cursorTo.line
        (copyForwardLines tryCompile mkLink rand lines cursorFrom cursorTo
          settings copy) =
      (lines, none) ∧
    (∃ s1 s2 : String,
      "Error: 'From' setting is invalid:\n\n" ++
        ("\"" ++ unescapeJson settings.lineFormatFrom ++ "\": \"" ++ e ++ "\"") ++
        "\n\nPlease update the Carry-Forward settings and try again." =
      s1 ++ unescapeJson settings.lineFormatFrom ++ s2) ∧
    (∃ s3 s4 : String,
      "Error: 'From' setting is invalid:\n\n" ++
        ("\"" ++ unescapeJson settings.lineFormatFrom ++ "\": \"" ++ e ++ "\"") ++
        "\n\nPlease update the Carry-Forward settings and try again." =
      s3 ++ e ++ s4) := by
  have hres : copyForwardLines tryCompile mkLink rand lines cursorFrom
      cursorTo settings copy =
      Outcome.aborted ("Error: 'From' setting is invalid:\n\n" ++
        ("\"" ++ unescapeJson settings.lineFormatFrom ++ "\": \"" ++ e ++ "\"") ++
        "\n\nPlease update the Carry-Forward settings and try again.") := by
    unfold copyForwardLines
    rw [validateRegex_err tryCompile settings.lineFormatFrom e he]
    dsimp only
    rw [if_pos Bool.false_ne_true]
  refine ⟨hres, by rw [hres]; rfl, ?_, ?_⟩
  · exact ⟨"Error: 'From' setting is invalid:\n\n" ++ "\"",
      "\": \"" ++ e ++ "\"" ++
        "\n\nPlease update the Carry-Forward settings and try again.",
      by simp only [strAppendAssoc]⟩
  · exact ⟨"Error: 'From' setting is invalid:\n\n" ++ "\"" ++
        unescapeJson settings.lineFormatFrom ++ "\": \"",
      "\"" ++ "\n\nPlease update the Carry-Forward settings and try again.",
      by simp only [strAppendAssoc]⟩

/-- C1 witness: a concrete invalid pattern aborts with the expected
notice. -/
theorem claim_c1_witness :
    copyForwardLines errCompile demoLink zeroRand ["a"] ⟨0, 0⟩ ⟨0, 0⟩
        { DEFAULT_SETTINGS with lineFormatFrom := "[abc" }
        CopyTypes.SeparateLines =
      Outcome.aborted ("Error: 'From' setting is invalid:\n\n" ++
        ("\"" ++ unescapeJson "[abc" ++ "\": \"" ++
          "SyntaxError: Invalid regular expression: missing ]" ++ "\"") ++
        "\n\nPlease update the Carry-Forward settings and try again.") :=
  (claim_c1_invalid_regex_aborts errCompile demoLink zeroRand ["a"]
    ⟨0, 0⟩ ⟨0, 0⟩ { DEFAULT_SETTINGS with lineFormatFrom := "[abc" }
    CopyTypes.SeparateLines
    "SyntaxError: Invalid regular expression: missing ]" rfl).1

/-- C2: a line already carrying a trailing anchor token is reused: in any
mode its source line comes out byte-identical and the mint counter is
untouched; on a single-line collapsed selection the run completes with the
line unchanged and zero mints; in `SeparateLines` mode the emitted copy is
built from the anchor-stripped copy slice with the link generated from the
existing token; the stripped slice carries no trailing anchor; and a line
produced by appending a fresh anchor is matched on a second run exactly at
that anchor, so forwarding twice links to the same anchor. -/
theorem claim_c2_anchor_reuse
    (tryCompile : String → Except String Fmt) (mkLink : String → String)
    (rand : Nat → Nat → Fin 37) (settings : Settings) (copy : CopyTypes)
    (l a : String) (c : Nat) (f0 f : Fmt)
    (hv : tryCompile (unescapeJson settings.lineFormatFrom) = Except.ok f0)
    (hr : tryCompile settings.lineFormatFrom = Except.ok f)
    (ha : matchBlockID l = some a) :
    (∀ (minLine maxLine fromCh toCh ln m : Nat),
      (processLineOk f mkLink rand settings copy minLine maxLine fromCh toCh
        ln l m).1 = l ∧
      (processLineOk f mkLink rand settings copy minLine maxLine fromCh toCh
        ln l m).2.2 = m) ∧
    (∃ cp, copyForwardLines tryCompile mkLink rand [l] ⟨0, c⟩ ⟨0, c⟩
        settings copy = Outcome.done [cp] [l] 0) ∧
    (copy = CopyTypes.SeparateLines →
      copyForwardLines tryCompile mkLink rand [l] ⟨0, c⟩ ⟨0, c⟩ settings
          copy =
        Outcome.done
          [f (stripBlockID (copySlice settings.removeLeadingWhitespace 0 0
              c c 0 l))
            (substPlaceholder settings.lineFormatTo (mkLink ("#" ++ a)))]
          [l] 0) ∧
    matchBlockID (stripBlockID (copySlice settings.removeLeadingWhitespace
      0 0 c c 0 l)) = none ∧
    (∀ s2 : String,
      matchBlockID (rstrip s2 ++ " " ++ ("^" ++ mintedID rand 0)) =
        some ("^" ++ mintedID rand 0)) := by
  have hkeep := fun minL maxL fCh tCh ln m =>
    processLineOk_anchored_keep f mkLink rand settings copy minL maxL fCh
      tCh ln l m a ha
  refine ⟨hkeep, ?_, ?_, ?_, ?_⟩
  · obtain ⟨cp, hcp⟩ := processLineOk_min_some f mkLink rand settings copy
      0 0 c c l 0
    refine ⟨cp, ?_⟩
    rw [copyForwardLines_single tryCompile mkLink rand l c settings copy
      f0 f hv hr]
    rw [hcp, (hkeep 0 0 c c 0 0).1, (hkeep 0 0 c c 0 0).2]
    rfl
  · intro hsl
    subst hsl
    rw [copyForwardLines_single tryCompile mkLink rand l c settings
      CopyTypes.SeparateLines f0 f hv hr]
    rw [processLineOk_single_existing_sl f mkLink rand settings c l 0 a ha]
    rfl
  · exact stripBlockID_no_match _
  · intro s2
    exact matchBlockID_rebuilt s2 (mintedID rand 0) (mintedID_ne_nil rand 0)
      (mintedID_blockIDChars rand 0)

/-- C2 witness: a concretely anchored line is left unchanged with zero
mints. -/
theorem claim_c2_witness :
    ∃ cp, copyForwardLines okCompile demoLink zeroRand ["x ^ab12c"] ⟨0, 0⟩
        ⟨0, 0⟩ DEFAULT_SETTINGS CopyTypes.SeparateLines =
      Outcome.done [cp] ["x ^ab12c"] 0 :=
  (claim_c2_anchor_reuse okCompile demoLink zeroRand DEFAULT_SETTINGS
    CopyTypes.SeparateLines "x ^ab12c" "^ab12c" 0 defaultFmtReplace
    defaultFmtReplace rfl rfl (by decide)).2.1

/-- C4: on the failing input (document lines `["ab", "cd"]`, selection
from line 0 column 0 to line 1 column 2), the copy slice of the first
line of the multi-line selection is `"a"` — the source slices to
`line.length - 1` and drops the final character, where the claim requires
the slice to run to the end of the line (`"ab"`).  The last-line,
interior-line and collapsed-cursor slices behave as claimed. -/
theorem claim_c4_first_line_slice :
    copySlice DEFAULT_SETTINGS.removeLeadingWhitespace 0 1 0 2 0 "ab" = "a" ∧
    copySlice DEFAULT_SETTINGS.removeLeadingWhitespace 0 1 0 2 1 "cd" = "cd" ∧
    copySlice DEFAULT_SETTINGS.removeLeadingWhitespace 0 2 1 3 1 "interior" =
      "interior" ∧
    copySlice false 0 0 3 3 0 "  x" = "  x" ∧
    processLineOk defaultFmtReplace demoLink zeroRand DEFAULT_SETTINGS
        CopyTypes.SeparateLines 0 1 0 2 0 "ab" 0 =
      ("ab ^aaaaa", some "a (see [[note#^aaaaa]])", 1) := by decide

/-- C5 counterexample: a line consisting solely of an anchor token at the
start of the line is NOT detected (the claim says it is), while an anchor
preceded by a caret character (not whitespace, not start of line) IS
detected. -/
theorem claim_c5_counterexample :
    matchBlockID "^abc12" = none ∧ matchBlockID "^^ab12" = some "^ab12" := by
  decide

/-- C5 amended: a line is recognized as already anchored exactly when it
ends with an anchor token immediately preceded by a whitespace character
or a caret character (start of line does not qualify). -/
theorem claim_c5_amended (l : String) :
    (matchBlockID l).isSome = true ↔ trailingAnchorSpec l := by
  constructor
  · intro h
    unfold matchBlockID at h
    cases hx : splitBlockID none l.data with
    | none => rw [hx] at h; exact absurd h (by simp)
    | some pm =>
      obtain ⟨p, m⟩ := pm
      obtain ⟨heq, ⟨t, hm, ht, hall⟩, hprev⟩ :=
        splitBlockID_sound l.data none p m hx
      rcases hprev with ⟨_, hpo⟩ | ⟨q, c0, hq, hpo⟩
      · exact absurd hpo (by simp [prevOK])
      · refine ⟨q, c0, t, ?_, ?_, ht, hall⟩
        · rw [heq, hq, hm]
          simp [List.append_assoc]
        · simpa only [prevOK, Bool.or_eq_true, decide_eq_true_eq] using hpo
  · rintro ⟨p, c0, t, hdata, hc, ht, hall⟩
    have hpo : prevOK (some c0) = true := by
      simp only [prevOK, Bool.or_eq_true, decide_eq_true_eq]
      exact hc
    have hsome := splitBlockID_complete p none c0 t hpo ht hall
    unfold matchBlockID
    rw [hdata]
    cases hx : splitBlockID none (p ++ c0 :: '^' :: t) with
    | none => rw [hx] at hsome; exact absurd hsome (by simp)
    | some pm => obtain ⟨p2, m2⟩ := pm; rfl

/-- C6: placeholder substitution replaces the placeholder with the link
stripped of its closing double bracket, the captured pipe suffix, and a
re-appended closing double bracket; concretely on the claimed input and
on the no-suffix form. -/
theorem claim_c6_placeholder :
    substPlaceholder "(see {{LINK|alt}})" "[[note#^ab12c]]" =
      "(see [[note#^ab12c|alt]])" ∧
    substPlaceholder "(see {{LINK}})" "[[note#^ab12c]]" =
      "(see [[note#^ab12c]])" := by decide

/-- C3 counterexample: in `LinkOnly` mode a selection containing an
all-whitespace middle line produces TWO copy lines (the link line and the
blank passthrough), not one: the blank-line shortcut pushes its copy
before the link-only filter is reached. -/
theorem claim_c3_counterexample :
    copyForwardLines okCompile demoLink zeroRand ["a", "", "b"] ⟨0, 0⟩
        ⟨2, 1⟩ DEFAULT_SETTINGS CopyTypes.LinkOnly =
      Outcome.done ["(see [[note#^aaaaa]])", ""] ["a ^aaaaa", "", "b"] 1 := by
  decide

/-- C3 amended: in `LinkOnly`/`LinkOnlyEmbed` modes the copy output is a
single line whenever no selected line after the first is all-whitespace,
and that line is the copy emitted by the per-line step for the first
selected line (`minLine`, processed with the initial mint counter); each
all-whitespace line after the first would additionally pass through as its
own copy line. -/
theorem claim_c3_amended (tryCompile : String → Except String Fmt)
    (mkLink : String → String) (rand : Nat → Nat → Fin 37)
    (lines : List String) (settings : Settings) (copy : CopyTypes)
    (minLine maxLine fromCh toCh : Nat) (f0 f : Fmt)
    (hv : tryCompile (unescapeJson settings.lineFormatFrom) = Except.ok f0)
    (hr : tryCompile settings.lineFormatFrom = Except.ok f)
    (hcopy : copy = CopyTypes.LinkOnly ∨ copy = CopyTypes.LinkOnlyEmbed)
    (hle : minLine ≤ maxLine)
    (hnb : ∀ j, minLine < j → j ≤ maxLine →
      isAllWs (lines.getD j "") = false) :
    ∃ cp us mf,
      copyForwardLines tryCompile mkLink rand lines ⟨minLine, fromCh⟩
        ⟨maxLine, toCh⟩ settings copy = Outcome.done [cp] us mf ∧
      (processLineOk f mkLink rand settings copy minLine maxLine fromCh toCh
        minLine (lines.getD minLine "") 0).2.1 = some cp := by
  rw [copyForwardLines_eq tryCompile mkLink rand lines ⟨minLine, fromCh⟩
    ⟨maxLine, toCh⟩ settings copy f0 f hv hr]
  dsimp only
  obtain ⟨n, hn⟩ : ∃ n, maxLine + 1 - minLine = n + 1 :=
    ⟨maxLine - minLine, by omega⟩
  have hblank : ∀ i, i < n →
      isAllWs (lines.getD (minLine + 1 + i) "") = false := by
    intro i hi
    exact hnb (minLine + 1 + i) (by omega) (by omega)
  rw [hn, runLoopOk]
  dsimp only
  obtain ⟨s, hs⟩ := processLineOk_min_some f mkLink rand settings copy
    minLine maxLine fromCh toCh (lines.getD minLine "") 0
  rw [hs]
  rw [runLoopOk_lo_cs_nil f mkLink rand settings copy lines minLine maxLine
    fromCh toCh hcopy n (minLine + 1) _ (Nat.lt_succ_self minLine) hblank]
  exact ⟨s, _, _, rfl, rfl⟩

/-- C3 witness: a two-line blank-free selection in `LinkOnly` mode yields
exactly one copy line, the one emitted for the first selected line. -/
theorem claim_c3_witness :
    ∃ cp us mf,
      copyForwardLines okCompile demoLink zeroRand ["a", "b"] ⟨0, 0⟩ ⟨1, 1⟩
          DEFAULT_SETTINGS CopyTypes.LinkOnly = Outcome.done [cp] us mf ∧
      (processLineOk defaultFmtReplace demoLink zeroRand DEFAULT_SETTINGS
        CopyTypes.LinkOnly 0 1 0 1 0 (["a", "b"].getD 0 "") 0).2.1 =
        some cp :=
  claim_c3_amended okCompile demoLink zeroRand ["a", "b"] DEFAULT_SETTINGS
    CopyTypes.LinkOnly 0 1 0 1 defaultFmtReplace defaultFmtReplace rfl rfl
    (Or.inl rfl) (by decide)
    (fun j h1 h2 => by
      have hj : j = 1 := by omega
      subst hj
      decide)

/-- C7: in `SeparateLines` mode a selection spanning lines
`minLine..maxLine` produces exactly `maxLine - minLine + 1` copy lines and
as many updated source lines, and the i-th copy line is the processed form
of selected line `minLine + i`, in document order. -/
theorem claim_c7_separate_lines_count (tryCompile : String → Except String Fmt)
    (mkLink : String → String) (rand : Nat → Nat → Fin 37)
    (lines : List String) (settings : Settings)
    (minLine maxLine fromCh toCh : Nat) (f0 f : Fmt)
    (hv : tryCompile (unescapeJson settings.lineFormatFrom) = Except.ok f0)
    (hr : tryCompile settings.lineFormatFrom = Except.ok f)
    (hle : minLine ≤ maxLine) :
    ∃ cs us mf,
      copyForwardLines tryCompile mkLink rand lines ⟨minLine, fromCh⟩
          ⟨maxLine, toCh⟩ settings CopyTypes.SeparateLines =
        Outcome.done cs us mf ∧
      cs.length = maxLine - minLine + 1 ∧
      us.length = maxLine - minLine + 1 ∧
      (∀ i, i < maxLine - minLine + 1 →
        ∃ m2, cs.get? i =
          (processLineOk f mkLink rand settings CopyTypes.SeparateLines
            minLine maxLine fromCh toCh (minLine + i)
            (lines.getD (minLine + i) "") m2).2.1) := by
  rw [copyForwardLines_eq tryCompile mkLink rand lines ⟨minLine, fromCh⟩
    ⟨maxLine, toCh⟩ settings CopyTypes.SeparateLines f0 f hv hr]
  dsimp only
  have hk : maxLine + 1 - minLine = maxLine - minLine + 1 := by omega
  rw [hk]
  refine ⟨_, _, _, rfl, ?_, ?_, ?_⟩
  · exact runLoopOk_sl_cs_length f mkLink rand settings lines minLine
      maxLine fromCh toCh _ minLine 0
  · exact runLoopOk_us_length f mkLink rand settings CopyTypes.SeparateLines
      lines minLine maxLine fromCh toCh _ minLine 0
  · intro i hi
    exact runLoopOk_sl_cs_get f mkLink rand settings lines minLine maxLine
      fromCh toCh _ minLine 0 i hi

/-- C7 witness: a concrete two-line selection yields two copy lines and
two updated lines. -/
theorem claim_c7_witness :
    ∃ cs us mf,
      copyForwardLines okCompile demoLink zeroRand ["p", "q"] ⟨0, 0⟩ ⟨1, 1⟩
          DEFAULT_SETTINGS CopyTypes.SeparateLines =
        Outcome.done cs us mf ∧
      cs.length = 1 - 0 + 1 ∧
      us.length = 1 - 0 + 1 ∧
      (∀ i, i < 1 - 0 + 1 →
        ∃ m2, cs.get? i =
          (processLineOk defaultFmtReplace demoLink zeroRand
            DEFAULT_SETTINGS CopyTypes.SeparateLines 0 1 0 1 (0 + i)
            (["p", "q"].getD (0 + i) "") m2).2.1) :=
  claim_c7_separate_lines_count okCompile demoLink zeroRand ["p", "q"]
    DEFAULT_SETTINGS 0 1 0 1 defaultFmtReplace defaultFmtReplace rfl rfl
    (by decide)

/-- C8: an all-whitespace line strictly inside a multi-line selection
passes through byte-identical: the per-line step returns it unchanged on
both the source side and the copy side and mints nothing, and in the full
run the corresponding updated entry (and, in `SeparateLines` mode, the
corresponding copy entry) equals the original line. -/
theorem claim_c8_blank_passthrough (tryCompile : String → Except String Fmt)
    (mkLink : String → String) (rand : Nat → Nat → Fin 37)
    (lines : List String) (settings : Settings) (copy : CopyTypes)
    (minLine maxLine fromCh toCh j m : Nat) (f0 f : Fmt)
    (hv : tryCompile (unescapeJson settings.lineFormatFrom) = Except.ok f0)
    (hr : tryCompile settings.lineFormatFrom = Except.ok f)
    (h1 : minLine < j) (h2 : j < maxLine)
    (hb : isAllWs (lines.getD j "") = true) :
    processLineOk f mkLink rand settings copy minLine maxLine fromCh toCh j
        (lines.getD j "") m =
      (lines.getD j "", some (lines.getD j ""), m) ∧
    ∃ cs us mf,
      copyForwardLines tryCompile mkLink rand lines ⟨minLine, fromCh⟩
          ⟨maxLine, toCh⟩ settings copy = Outcome.done cs us mf ∧
      us.get? (j - minLine) = some (lines.getD j "") ∧
      (copy = CopyTypes.SeparateLines →
        cs.get? (j - minLine) = some (lines.getD j "")) := by
  have hpl := fun (m2 : Nat) =>
    processLineOk_blank_interior f mkLink rand settings copy minLine maxLine
      fromCh toCh j (lines.getD j "") m2 (by omega) (by omega) hb
  refine ⟨hpl m, ?_⟩
  rw [copyForwardLines_eq tryCompile mkLink rand lines ⟨minLine, fromCh⟩
    ⟨maxLine, toCh⟩ settings copy f0 f hv hr]
  dsimp only
  refine ⟨_, _, _, rfl, ?_, ?_⟩
  · obtain ⟨m2, hm2⟩ := runLoopOk_us_get f mkLink rand settings copy lines
      minLine maxLine fromCh toCh (maxLine + 1 - minLine) minLine 0
      (j - minLine) (by omega)
    have hj : minLine + (j - minLine) = j := by omega
    rw [hj] at hm2
    rw [hm2, hpl m2]
  · intro hsl
    subst hsl
    obtain ⟨m2, hm2⟩ := runLoopOk_sl_cs_get f mkLink rand settings lines
      minLine maxLine fromCh toCh (maxLine + 1 - minLine) minLine 0
      (j - minLine) (by omega)
    have hj : minLine + (j - minLine) = j := by omega
    rw [hj] at hm2
    rw [hm2, hpl m2]

/-- C8 witness: the middle blank of `["a", " ", "b"]` passes through
unchanged with no mint. -/
theorem claim_c8_witness :
    processLineOk defaultFmtReplace demoLink zeroRand DEFAULT_SETTINGS
        CopyTypes.SeparateLines 0 2 0 1 1 (["a", " ", "b"].getD 1 "") 0 =
      (["a", " ", "b"].getD 1 "", some (["a", " ", "b"].getD 1 ""), 0) :=
  (claim_c8_blank_passthrough okCompile demoLink zeroRand ["a", " ", "b"]
    DEFAULT_SETTINGS CopyTypes.SeparateLines 0 2 0 1 1 0 defaultFmtReplace
    defaultFmtReplace rfl rfl (by decide) (by decide) (by decide)).1

/-- C9: with `removeLeadingWhitespace` enabled and a collapsed cursor on
the line `"   - item"`, the copy is built from the stripped slice
`"- item"` while the updated source line keeps its leading whitespace and
gains the appended anchor; exactly one identifier is minted. -/
theorem claim_c9_leading_whitespace (tryCompile : String → Except String Fmt)
    (mkLink : String → String) (rand : Nat → Nat → Fin 37) (c : Nat)
    (hr : tryCompile DEFAULT_SETTINGS.lineFormatFrom =
      Except.ok defaultFmtReplace) :
    copyForwardLines tryCompile mkLink rand ["   - item"] ⟨0, c⟩ ⟨0, c⟩
        DEFAULT_SETTINGS CopyTypes.SeparateLines =
      Outcome.done
        ["- item" ++ substPlaceholder DEFAULT_SETTINGS.lineFormatTo
          (mkLink ("#" ++ ("^" ++ mintedID rand 0)))]
        ["   - item ^" ++ mintedID rand 0] 1 := by
  have hv : tryCompile (unescapeJson DEFAULT_SETTINGS.lineFormatFrom) =
      Except.ok defaultFmtReplace := by
    rw [show unescapeJson DEFAULT_SETTINGS.lineFormatFrom =
      DEFAULT_SETTINGS.lineFormatFrom from by decide]
    exact hr
  rw [copyForwardLines_single tryCompile mkLink rand "   - item" c
    DEFAULT_SETTINGS CopyTypes.SeparateLines defaultFmtReplace
    defaultFmtReplace hv hr]
  have hstep : processLineOk defaultFmtReplace mkLink rand DEFAULT_SETTINGS
      CopyTypes.SeparateLines 0 0 c c 0 "   - item" 0 =
      ("   - item ^" ++ mintedID rand 0,
       some ("- item" ++ substPlaceholder DEFAULT_SETTINGS.lineFormatTo
         (mkLink ("#" ++ ("^" ++ mintedID rand 0)))),
       1) := by
    unfold processLineOk
    dsimp only
    rw [copySlice_collapsed]
    rw [if_pos (show DEFAULT_SETTINGS.removeLeadingWhitespace = true
      from rfl)]
    rw [show dropLeadingWs "   - item" = "- item" from by decide]
    rw [if_neg (fun hcon => hcon.2 ⟨rfl, rfl⟩)]
    unfold anchorOk
    dsimp only
    rw [if_pos (Or.inl rfl)]
    rw [show matchBlockID "   - item" = none from by decide]
    dsimp only
    rw [if_neg (fun hcon => hcon.elim (fun h => CopyTypes.noConfusion h)
      (fun h => CopyTypes.noConfusion h))]
    rw [if_neg (fun hcon => hcon.2 rfl)]
    unfold defaultFmtReplace
    rw [show rstrip "   - item" = "   - item" from by decide,
      show rstrip "- item" = "- item" from by decide]
    have hline : "   - item" ++ " " ++ ("^" ++ mintedID rand 0) =
        "   - item ^" ++ mintedID rand 0 := by
      rw [show ("   - item" ++ " " : String) = "   - item " from by decide,
        ← strAppendAssoc,
        show ("   - item " ++ "^" : String) = "   - item ^" from by decide]
    rw [hline]
  rw [hstep]
  rfl

/-- C9 witness: the concrete instantiation with the zero random stream. -/
theorem claim_c9_witness :
    copyForwardLines okCompile demoLink zeroRand ["   - item"] ⟨0, 0⟩ ⟨0, 0⟩
        DEFAULT_SETTINGS CopyTypes.SeparateLines =
      Outcome.done
        ["- item" ++ substPlaceholder DEFAULT_SETTINGS.lineFormatTo
          (demoLink ("#" ++ ("^" ++ mintedID zeroRand 0)))]
        ["   - item ^" ++ mintedID zeroRand 0] 1 :=
  claim_c9_leading_whitespace okCompile demoLink zeroRand 0 rfl

/-- C10: in every mode the updated source list has one entry per selected
line, and each entry is either byte-identical to its original line or the
original line with its trailing whitespace replaced by one space and a
freshly minted anchor: a caret plus five characters drawn from lowercase
letters, digits and hyphen. -/
theorem claim_c10_update_invariant (tryCompile : String → Except String Fmt)
    (mkLink : String → String) (rand : Nat → Nat → Fin 37)
    (lines : List String) (settings : Settings) (copy : CopyTypes)
    (minLine maxLine fromCh toCh : Nat) (f0 f : Fmt)
    (hv : tryCompile (unescapeJson settings.lineFormatFrom) = Except.ok f0)
    (hr : tryCompile settings.lineFormatFrom = Except.ok f) :
    ∃ cs us mf,
      copyForwardLines tryCompile mkLink rand lines ⟨minLine, fromCh⟩
          ⟨maxLine, toCh⟩ settings copy = Outcome.done cs us mf ∧
      us.length = maxLine + 1 - minLine ∧
      ∀ i, i < us.length →
        us.get? i = some (lines.getD (minLine + i) "") ∨
        ∃ jm, us.get? i = some (rstrip (lines.getD (minLine + i) "") ++ " "
            ++ ("^" ++ mintedID rand jm)) ∧
          (mintedID rand jm).length = 5 ∧
          (mintedID rand jm).data.all
            (fun ch => decide (('a' ≤ ch ∧ ch ≤ 'z') ∨
              ('0' ≤ ch ∧ ch ≤ '9') ∨ ch = '-')) = true := by
  rw [copyForwardLines_eq tryCompile mkLink rand lines ⟨minLine, fromCh⟩
    ⟨maxLine, toCh⟩ settings copy f0 f hv hr]
  dsimp only
  refine ⟨_, _, _, rfl, runLoopOk_us_length f mkLink rand settings copy
    lines minLine maxLine fromCh toCh _ minLine 0, ?_⟩
  intro i hi
  rw [runLoopOk_us_length f mkLink rand settings copy lines minLine maxLine
    fromCh toCh _ minLine 0] at hi
  obtain ⟨m2, hm2⟩ := runLoopOk_us_get f mkLink rand settings copy lines
    minLine maxLine fromCh toCh (maxLine + 1 - minLine) minLine 0 i hi
  rcases processLineOk_updated f mkLink rand settings copy minLine maxLine
    fromCh toCh (minLine + i) (lines.getD (minLine + i) "") m2 with h | h
  · exact Or.inl (by rw [hm2, h])
  · exact Or.inr ⟨m2, by rw [hm2, h], mintedID_length rand m2,
      mintedID_chars rand m2⟩

/-- C10 witness: a concrete one-line run satisfies the invariant. -/
theorem claim_c10_witness :
    ∃ cs us mf,
      copyForwardLines okCompile demoLink zeroRand ["p"] ⟨0, 0⟩ ⟨0, 0⟩
          DEFAULT_SETTINGS CopyTypes.SeparateLines = Outcome.done cs us mf ∧
      us.length = 0 + 1 - 0 ∧
      ∀ i, i < us.length →
        us.get? i = some (["p"].getD (0 + i) "") ∨
        ∃ jm, us.get? i = some (rstrip (["p"].getD (0 + i) "") ++ " "
            ++ ("^" ++ mintedID zeroRand jm)) ∧
          (mintedID zeroRand jm).length = 5 ∧
          (mintedID zeroRand jm).data.all
            (fun ch => decide (('a' ≤ ch ∧ ch ≤ 'z') ∨
              ('0' ≤ ch ∧ ch ≤ '9') ∨ ch = '-')) = true :=
  claim_c10_update_invariant okCompile demoLink zeroRand ["p"]
    DEFAULT_SETTINGS CopyTypes.SeparateLines 0 0 0 0 defaultFmtReplace
    defaultFmtReplace rfl rfl
